import Mathlib

namespace LCI

/-!
Shallow embedding of the loot-condition-interpreter condition evaluation
engine: src/version.rs (bespoke version parsing and ordering) and
src/function/eval.rs (predicate evaluators, overlay enumeration and the two
caches).  Filesystem access, the regex engine, the esplugin plugin-header
reader and the pelite PE-resource reader are external collaborators of the
repository; they are modelled as opaque functions bundled in an environment
structure, exactly as wide as the calls the source makes into them.
-/

/-- A filesystem path, modelled by its textual form (paths relevant to the
claims are valid UTF-8, so Path::to_str is total in the model). -/
abbrev Path := String

/-- A compiled regular expression, identified by its pattern text.  The
predicate type compares regexes by pattern for cache keying; the matching
functions live in the environment. -/
abbrev RegexPat := String

/-- Models str::to_lowercase from the source, per character.  It agrees with
the source on all ASCII input (full Unicode case mapping is outside the
embedding; every string the claims touch is ASCII). -/
def toLowercase (s : String) : String := String.mk (s.data.map Char.toLower)

/-- Game types, exactly the variants matched in parse_plugin in
src/function/eval.rs. -/
inductive GameType where
  | Morrowind | OpenMW | Oblivion | Skyrim | SkyrimSE | SkyrimVR
  | Fallout3 | FalloutNV | Fallout4 | Fallout4VR | Starfield
deriving DecidableEq, Repr

/-- esplugin game identifiers, as used by parse_plugin in
src/function/eval.rs. -/
inductive GameId where
  | Morrowind | Oblivion | Skyrim | SkyrimSE
  | Fallout3 | FalloutNV | Fallout4 | Starfield
deriving DecidableEq, Repr

/-- Comparison operators, the six variants matched in compare_versions in
src/function/eval.rs. -/
inductive ComparisonOperator where
  | Equal | NotEqual | LessThan | GreaterThan | LessThanOrEqual | GreaterThanOrEqual
deriving DecidableEq, Repr

/-! ### Version (src/version.rs) -/

/-- Identifier from src/version.rs: a version fragment, either numeric
(a u32 in the source) or a lowercased text fragment. -/
inductive Identifier where
  | Numeric (n : Nat)
  | NonNumeric (s : String)
deriving DecidableEq, Repr

/-- Value of a list of decimal digit characters (most significant first). -/
def digitsToNat (cs : List Char) : Nat :=
  cs.foldl (fun n c => n * 10 + (c.toNat - 48)) 0

/-- The ASCII decimal digit test, as char::to_digit(10) accepts. -/
def isDigitChar (c : Char) : Bool := decide (48 ≤ c.toNat ∧ c.toNat ≤ 57)

/-- Models u32::from_str_radix(string, 10) from Identifier::from in
src/version.rs: an optional sign followed by at least one ASCII decimal
digit; a minus sign succeeds only for value zero; values of 2^32 or more
overflow and fail. -/
def fromStrRadix10 (s : String) : Option Nat :=
  let cs := s.data
  let digits := if cs.head? = some '+' ∨ cs.head? = some '-' then cs.tail else cs
  if digits = [] ∨ digits.all isDigitChar = false then none
  else if cs.head? = some '-' then
    (if digitsToNat digits = 0 then some 0 else none)
  else if digitsToNat digits < 2 ^ 32 then some (digitsToNat digits) else none

/-- Identifier::from(&str) in src/version.rs: parse as a u32, falling back to
the lowercased text on any parse failure. -/
def Identifier.fromStr (s : String) : Identifier :=
  match fromStrRadix10 s with
  | some n => .Numeric n
  | none => .NonNumeric (toLowercase s)

/-- Ordering of identifiers: the derived PartialOrd of src/version.rs, where
Numeric always orders below NonNumeric, numerics compare by value and
non-numerics compare lexicographically. -/
def Identifier.cmp : Identifier → Identifier → Ordering
  | .Numeric a, .Numeric b => compare a b
  | .Numeric _, .NonNumeric _ => .lt
  | .NonNumeric _, .Numeric _ => .gt
  | .NonNumeric a, .NonNumeric b => compare a b

/-- Lexicographic comparison of identifier sequences, as Vec's ordering in
the source: element-wise, with a strict prefix ordering first. -/
def cmpIdList : List Identifier → List Identifier → Ordering
  | [], [] => .eq
  | [], _ :: _ => .lt
  | _ :: _, [] => .gt
  | a :: as_, b :: bs =>
    match Identifier.cmp a b with
    | .eq => cmpIdList as_ bs
    | o => o

/-- Version from src/version.rs: release identifiers and pre-release
identifiers. -/
structure Version where
  release_ids : List Identifier
  pre_release_ids : List Identifier
deriving DecidableEq, Repr

/-- is_separator from src/version.rs. -/
def is_separator (c : Char) : Bool := c == '-' || c == ' ' || c == ':' || c == '_'

/-- is_pre_release_separator from src/version.rs. -/
def is_pre_release_separator (c : Char) : Bool := c == '.' || is_separator c

/-- trim_metadata from src/version.rs: an empty input becomes "0"; otherwise
everything from the first plus sign onwards is dropped (the takeWhile is the
find-then-slice of the source: with no plus sign present it keeps the whole
string). -/
def trim_metadata (version : String) : String :=
  if version = "" then "0"
  else String.mk (version.data.takeWhile (fun c => !(c == '+')))

/-- Splitting a character list at every separator (str::split in the
source: no trailing-empty trimming, an empty input gives one empty part). -/
def splitPred (p : Char → Bool) : List Char → List (List Char)
  | [] => [[]]
  | c :: cs =>
    if p c then [] :: splitPred p cs
    else
      match splitPred p cs with
      | [] => [[c]]
      | l :: ls => (c :: l) :: ls

/-- str::split_terminator in the source: like split, except a trailing empty
part is dropped. -/
def split_terminator (p : Char → Bool) (cs : List Char) : List (List Char) :=
  let parts := splitPred p cs
  if parts.getLast? = some [] then parts.dropLast else parts

/-- Version::from(&str) in src/version.rs: trim metadata; split the string at
the first separator into release and pre-release portions (a separator in
final position leaves the whole string as the release portion); release
identifiers are dot-separated, pre-release identifiers are separated by dot
or any separator with a trailing empty part dropped. -/
def Version.fromStr (string : String) : Version :=
  let trimmed := (trim_metadata string).data
  let relPre : List Char × List Char :=
    match trimmed.span (fun c => !(is_separator c)) with
    | (_, []) => (trimmed, [])
    | (_, [_]) => (trimmed, [])
    | (before, _ :: tail) => (before, tail)
  { release_ids := (splitPred (fun c => c == '.') relPre.1).map
      (fun l => Identifier.fromStr (String.mk l)),
    pre_release_ids := (split_terminator is_pre_release_separator relPre.2).map
      (fun l => Identifier.fromStr (String.mk l)) }

/-- pad_release_ids from src/version.rs: extend the shorter sequence with
trailing zero identifiers. -/
def pad_release_ids (ids1 ids2 : List Identifier) :
    List Identifier × List Identifier :=
  if ids1.length < ids2.length then
    (ids1 ++ List.replicate (ids2.length - ids1.length) (.Numeric 0), ids2)
  else if ids2.length < ids1.length then
    (ids1, ids2 ++ List.replicate (ids1.length - ids2.length) (.Numeric 0))
  else (ids1, ids2)

/-- The ordering of Version from src/version.rs: compare padded release
sequences, then pre-release sequences (the identifier orders are total, so
the None branch of the source's PartialOrd is unreachable and folds into
equality). -/
def Version.cmp (v1 v2 : Version) : Ordering :=
  let p := pad_release_ids v1.release_ids v2.release_ids
  match cmpIdList p.1 p.2 with
  | .eq => cmpIdList v1.pre_release_ids v2.pre_release_ids
  | o => o

/-- PartialEq for Version from src/version.rs: padded release sequences
equal and pre-release sequences equal. -/
def Version.beq (v1 v2 : Version) : Bool :=
  let p := pad_release_ids v1.release_ids v2.release_ids
  p.1 == p.2 && v1.pre_release_ids == v2.pre_release_ids

/-- The strict less-than derived from partial_cmp (Some(Less)). -/
def Version.lt (v1 v2 : Version) : Bool := v1.cmp v2 == .lt

/-- less-or-equal derived from partial_cmp (Some(Less) or Some(Equal)). -/
def Version.le (v1 v2 : Version) : Bool := v1.cmp v2 == .lt || v1.cmp v2 == .eq

/-! ### Errors, predicates, state (src/function/eval.rs and its context) -/

/-- crate::Error as used by src/function/eval.rs: the IoError variant is the
one the file constructs (carrying the offending path and the underlying
cause); every other failure source is collapsed into an opaque variant. -/
inductive Error where
  | IoError (path : Path) (cause : String)
  | Other (description : String)
deriving DecidableEq, Repr

/-- Function: the predicate type, with exactly the fifteen variants
dispatched in Function::eval in src/function/eval.rs.  Regexes are keyed by
their pattern so the type supports the equality and hashing the result cache
needs. -/
inductive Function where
  | FilePath (p : Path)
  | FileRegex (p : Path) (r : RegexPat)
  | FileSize (p : Path) (s : Nat)
  | Readable (p : Path)
  | IsExecutable (p : Path)
  | ActivePath (p : Path)
  | ActiveRegex (r : RegexPat)
  | IsMaster (p : Path)
  | Many (p : Path) (r : RegexPat)
  | ManyActive (r : RegexPat)
  | Checksum (p : Path) (crc : Nat)
  | Version (p : Path) (v : String) (c : ComparisonOperator)
  | ProductVersion (p : Path) (v : String) (c : ComparisonOperator)
  | FilenameVersion (p : Path) (r : RegexPat) (v : String) (c : ComparisonOperator)
  | DescriptionContains (p : Path) (r : RegexPat)
deriving DecidableEq, Repr

/-- State: the evaluation context of src/function/eval.rs.  The two caches
are RwLock-protected HashMaps in the source; here each is an association
list paired with a poison flag (true when a previous writer panicked while
holding the lock). -/
structure State where
  game_type : GameType
  data_path : Path
  additional_data_paths : List Path
  active_plugins : List String
  plugin_versions : List (String × String)
  crc_cache : List (String × Nat)
  crc_cache_poisoned : Bool
  condition_cache : List (Function × Bool)
  condition_cache_poisoned : Bool

/-- A parsed plugin header, the view esplugin exposes to eval.rs: the master
flag and the optional description (plugin.description() with its error
already collapsed to None, as the call site does). -/
structure PluginHeader where
  is_master : Bool
  descr : Option String

/-- The environment bundles the external collaborators of eval.rs:
filesystem queries, directory listing (None models read_dir failing, the
inner Except models per-entry errors), the streaming CRC-32 computation,
the pelite version readers, the esplugin header reader and the regex
engine.  The last three fields model the repository's own
src/function/path.rs, which is not part of the given sources.
Modelled from the spec: resolvePath is the spec section 4.1 resolver (it
may consult only the game type, the data paths and the relative path);
normaliseFileName strips a ghost suffix from a raw directory-entry name
when applicable; hasPluginFileExtension recognises per-game plugin
extensions.  No claim depends on their internals, so they stay abstract. -/
structure Env where
  pathExists : Path → Bool
  isFile : Path → Bool
  isDir : Path → Bool
  canOpen : Path → Bool
  metadataLen : Path → Option Nat
  readDir : Path → Option (List (Except String String))
  readFileCrc : Path → Except String Nat
  readFileVersion : Path → Except Error (Option Version)
  readProductVersion : Path → Except Error (Option Version)
  isExecutableReadable : Path → Bool
  parsePlugin : GameId → Path → Option PluginHeader
  regexIsMatch : RegexPat → String → Bool
  regexCaptures1 : RegexPat → String → Option (Option String)
  resolvePath : GameType → Path → List Path → Path → Path
  normaliseFileName : GameType → String → String
  hasPluginFileExtension : GameType → Path → Bool

/-- Path::join for the base-path/parent-path join in eval.rs. -/
def path_join (base p : Path) : Path := base ++ "/" ++ p

/-- resolve_path(state, path) of the missing path module, applied through
the environment; it may read only the game type and the data paths. -/
def resolve_path (env : Env) (st : State) (p : Path) : Path :=
  env.resolvePath st.game_type st.data_path st.additional_data_paths p

/-- Path::file_name of the given path: the final slash-separated component,
none for paths ending in a parent/current-directory component or a trailing
slash. -/
def pathFileName (p : Path) : Option String :=
  match (splitPred (fun c => c == '/') p.data).getLast? with
  | some last =>
    if last = [] ∨ last = ['.'] ∨ last = ['.', '.'] then none
    else some (String.mk last)
  | none => none

/-- lowercase_filename from src/function/eval.rs. -/
def lowercase_filename (p : Path) : Option String :=
  (pathFileName p).map toLowercase

/-! ### Overlay enumeration (src/function/eval.rs lines 26-72) -/

/-- The inner entry loop of evaluate_dir_entries_from_base_paths: visit the
listed entries in order, threading the FnMut evaluator state; a per-entry
error is returned as IoError carrying the listed directory; a true from the
evaluator stops the scan. -/
def visit_entries {σ : Type} (ev : σ → String → σ × Bool) :
    σ → List (Except String String) → Path → Except Error (σ × Bool)
  | s, [], _ => .ok (s, false)
  | _, .error e :: _, parent => .error (.IoError parent e)
  | s, .ok name :: rest, parent =>
    if (ev s name).2 then .ok ((ev s name).1, true)
    else visit_entries ev (ev s name).1 rest parent

/-- evaluate_dir_entries_from_base_paths from src/function/eval.rs: for each
base path in order, join the parent path and list the directory; a listing
failure yields Ok(false) for the whole enumeration; otherwise the entries
are visited, propagating entry errors and stopping on an accepting entry. -/
def evaluate_dir_entries_from_base_paths (env : Env) {σ : Type}
    (ev : σ → String → σ × Bool) :
    σ → List Path → Path → Except Error Bool
  | _, [], _ => .ok false
  | s, base :: rest, parent_path =>
    match env.readDir (path_join base parent_path) with
    | none => .ok false
    | some entries =>
      match visit_entries ev s entries (path_join base parent_path) with
      | .error e => .error e
      | .ok (_, true) => .ok true
      | .ok (s1, false) => evaluate_dir_entries_from_base_paths env ev s1 rest parent_path

/-- evaluate_dir_entries from src/function/eval.rs: the OpenMW game type
visits the additional data paths in reverse order then the data path;
every other game type visits them in order then the data path. -/
def evaluate_dir_entries (env : Env) (st : State) (parent_path : Path) {σ : Type}
    (ev : σ → String → σ × Bool) (init : σ) : Except Error Bool :=
  match st.game_type with
  | .OpenMW =>
    evaluate_dir_entries_from_base_paths env ev init
      (st.additional_data_paths.reverse ++ [st.data_path]) parent_path
  | _ =>
    evaluate_dir_entries_from_base_paths env ev init
      (st.additional_data_paths ++ [st.data_path]) parent_path

/-! ### Per-kind evaluators (src/function/eval.rs) -/

/-- evaluate_file_path. -/
def evaluate_file_path (env : Env) (st : State) (file_path : Path) : Bool :=
  env.pathExists (resolve_path env st file_path)

/-- is_match: normalise the entry name then match the regex. -/
def is_match (env : Env) (game_type : GameType) (r : RegexPat) (file_name : String) : Bool :=
  env.regexIsMatch r (env.normaliseFileName game_type file_name)

/-- evaluate_file_regex. -/
def evaluate_file_regex (env : Env) (st : State) (parent_path : Path) (r : RegexPat) :
    Except Error Bool :=
  evaluate_dir_entries env st parent_path
    (fun (_ : Unit) name => ((), is_match env st.game_type r name)) ()

/-- evaluate_file_size: compare the metadata length of the resolved path,
with every metadata failure collapsed to false (the source's or(Ok(false))
makes its Result always Ok, so the model returns Bool). -/
def evaluate_file_size (env : Env) (st : State) (path : Path) (size : Nat) : Bool :=
  match env.metadataLen (resolve_path env st path) with
  | some len => len == size
  | none => false

/-- evaluate_readable: directories (tested on the unresolved path, as the
source does) are readable when they can be listed; files when they can be
opened. -/
def evaluate_readable (env : Env) (st : State) (path : Path) : Bool :=
  if env.isDir path then (env.readDir (resolve_path env st path)).isSome
  else env.canOpen (resolve_path env st path)

/-- evaluate_is_executable, delegating to Version::is_readable of the PE
reader. -/
def evaluate_is_executable (env : Env) (st : State) (path : Path) : Bool :=
  env.isExecutableReadable (resolve_path env st path)

/-- evaluate_active_path: membership of the lowercased path in the active
set. -/
def evaluate_active_path (st : State) (path : Path) : Bool :=
  st.active_plugins.contains (toLowercase path)

/-- evaluate_active_regex. -/
def evaluate_active_regex (env : Env) (st : State) (r : RegexPat) : Bool :=
  st.active_plugins.any (env.regexIsMatch r)

/-- The game id mapping of parse_plugin. -/
def gameIdOf : GameType → GameId
  | .Morrowind | .OpenMW => .Morrowind
  | .Oblivion => .Oblivion
  | .Skyrim => .Skyrim
  | .SkyrimSE | .SkyrimVR => .SkyrimSE
  | .Fallout3 => .Fallout3
  | .FalloutNV => .FalloutNV
  | .Fallout4 | .Fallout4VR => .Fallout4
  | .Starfield => .Starfield

/-- parse_plugin: resolve the path and hand it to the header reader. -/
def parse_plugin (env : Env) (st : State) (file_path : Path) : Option PluginHeader :=
  env.parsePlugin (gameIdOf st.game_type) (resolve_path env st file_path)

/-- evaluate_is_master: always false for OpenMW, else the parsed header's
master flag. -/
def evaluate_is_master (env : Env) (st : State) (file_path : Path) : Bool :=
  if st.game_type = .OpenMW then false
  else
    match parse_plugin env st file_path with
    | some plugin => plugin.is_master
    | none => false

/-- The FnMut evaluator of evaluate_many: the threaded Bool is found_one,
shared across all data paths. -/
def many_evaluator (env : Env) (game_type : GameType) (r : RegexPat) :
    Bool → String → Bool × Bool :=
  fun found_one name =>
    if is_match env game_type r name then
      if found_one then (found_one, true) else (true, false)
    else (found_one, false)

/-- evaluate_many. -/
def evaluate_many (env : Env) (st : State) (parent_path : Path) (r : RegexPat) :
    Except Error Bool :=
  evaluate_dir_entries env st parent_path (many_evaluator env st.game_type r) false

/-- The loop of evaluate_many_active over the active plugins. -/
def many_active_loop (p : String → Bool) : Bool → List String → Bool
  | _, [] => false
  | found_one, a :: rest =>
    if p a then (if found_one then true else many_active_loop p true rest)
    else many_active_loop p found_one rest

/-- evaluate_many_active. -/
def evaluate_many_active (env : Env) (st : State) (r : RegexPat) : Bool :=
  many_active_loop (env.regexIsMatch r) false st.active_plugins

/-- evaluate_checksum from src/function/eval.rs: consult the CRC cache
(skipped entirely when the lock read fails because of poison), else compute
the CRC of the resolved path when it is a file; open/read errors carry the
caller-supplied path; a poisoned cache is discarded by the writer, which
also clears the poison. -/
def evaluate_checksum (env : Env) (st : State) (file_path : Path) (crc : Nat) :
    Except Error Bool × State :=
  match (if st.crc_cache_poisoned then none
         else List.lookup (toLowercase file_path) st.crc_cache) with
  | some cached => (.ok (cached == crc), st)
  | none =>
    if !env.isFile (resolve_path env st file_path) then (.ok false, st)
    else
      match env.readFileCrc (resolve_path env st file_path) with
      | .error e => (.error (.IoError file_path e), st)
      | .ok calculated =>
        (.ok (calculated == crc),
         { st with
             crc_cache := (toLowercase file_path, calculated) ::
               (if st.crc_cache_poisoned then [] else st.crc_cache),
             crc_cache_poisoned := false })

/-- get_version from src/function/eval.rs: None for non-files; else the
override map keyed by the lowercased filename; else None for recognised
plugin extensions; else the PE file version. -/
def get_version (env : Env) (st : State) (file_path : Path) :
    Except Error (Option Version) :=
  if !env.isFile file_path then .ok none
  else
    match (lowercase_filename file_path).bind
        (fun key => List.lookup key st.plugin_versions) with
    | some version => .ok (some (Version.fromStr version))
    | none =>
      if env.hasPluginFileExtension st.game_type file_path then .ok none
      else env.readFileVersion file_path

/-- get_product_version from src/function/eval.rs. -/
def get_product_version (env : Env) (file_path : Path) :
    Except Error (Option Version) :=
  if env.isFile file_path then env.readProductVersion file_path
  else .ok none

/-- compare_versions from src/function/eval.rs. -/
def compare_versions (actual_version : Version) (comparator : ComparisonOperator)
    (given_version : String) : Bool :=
  let given := Version.fromStr given_version
  match comparator with
  | .Equal => actual_version.beq given
  | .NotEqual => !(actual_version.beq given)
  | .LessThan => actual_version.lt given
  | .GreaterThan => given.lt actual_version
  | .LessThanOrEqual => actual_version.le given
  | .GreaterThanOrEqual => given.le actual_version

/-- evaluate_version from src/function/eval.rs: resolve the path, read the
actual version through the given reader; when none is found the comparator
alone decides; otherwise compare. -/
def evaluate_version (env : Env) (st : State) (file_path : Path)
    (given_version : String) (comparator : ComparisonOperator)
    (read_version : Path → Except Error (Option Version)) : Except Error Bool :=
  match read_version (resolve_path env st file_path) with
  | .error e => .error e
  | .ok none =>
    .ok (comparator == .NotEqual || comparator == .LessThan
         || comparator == .LessThanOrEqual)
  | .ok (some actual) => .ok (compare_versions actual comparator given_version)

/-- The per-entry evaluator of evaluate_filename_version: capture group 1 of
the normalised name must participate, and its text, parsed as a Version,
must satisfy the comparator. -/
def filename_version_evaluator (env : Env) (game_type : GameType) (r : RegexPat)
    (version : String) (comparator : ComparisonOperator) (name : String) : Bool :=
  match env.regexCaptures1 r (env.normaliseFileName game_type name) with
  | some (some captured) =>
    compare_versions (Version.fromStr captured) comparator version
  | _ => false

/-- evaluate_filename_version from src/function/eval.rs. -/
def evaluate_filename_version (env : Env) (st : State) (parent_path : Path)
    (r : RegexPat) (version : String) (comparator : ComparisonOperator) :
    Except Error Bool :=
  evaluate_dir_entries env st parent_path
    (fun (_ : Unit) name =>
      ((), filename_version_evaluator env st.game_type r version comparator name)) ()

/-- evaluate_description_contains. -/
def evaluate_description_contains (env : Env) (st : State) (file_path : Path)
    (r : RegexPat) : Bool :=
  match parse_plugin env st file_path with
  | some plugin =>
    match plugin.descr with
    | some description => env.regexIsMatch r description
    | none => false
  | none => false

/-- Function::is_slow from src/function/eval.rs: everything except
ActivePath, ActiveRegex, ManyActive and Checksum. -/
def Function.is_slow : Function → Bool
  | .ActivePath _ | .ActiveRegex _ | .ManyActive _ | .Checksum _ _ => false
  | _ => true

/-- The dispatch of Function::eval (the match in the middle of the source
function, before the cache write).  Only Checksum mutates state (its own
cache). -/
def eval_body (env : Env) (f : Function) (st : State) : Except Error Bool × State :=
  match f with
  | .FilePath p => (.ok (evaluate_file_path env st p), st)
  | .FileRegex p r => (evaluate_file_regex env st p r, st)
  | .FileSize p s => (.ok (evaluate_file_size env st p s), st)
  | .Readable p => (.ok (evaluate_readable env st p), st)
  | .IsExecutable p => (.ok (evaluate_is_executable env st p), st)
  | .ActivePath p => (.ok (evaluate_active_path st p), st)
  | .ActiveRegex r => (.ok (evaluate_active_regex env st r), st)
  | .IsMaster p => (.ok (evaluate_is_master env st p), st)
  | .Many p r => (evaluate_many env st p r, st)
  | .ManyActive r => (.ok (evaluate_many_active env st r), st)
  | .Checksum p crc => evaluate_checksum env st p crc
  | .Version p v c => (evaluate_version env st p v c (get_version env st), st)
  | .ProductVersion p v c => (evaluate_version env st p v c (get_product_version env), st)
  | .FilenameVersion p r v c => (evaluate_filename_version env st p r v c, st)
  | .DescriptionContains p r => (.ok (evaluate_description_contains env st p r), st)

/-- Function::eval from src/function/eval.rs: slow predicates first consult
the result cache (the read is skipped when the lock is poisoned); the body
is dispatched; a slow predicate's Ok result is then written back, a
poisoned cache being discarded (and its poison cleared) by the writer. -/
def Function.eval (env : Env) (f : Function) (st : State) :
    Except Error Bool × State :=
  match (if f.is_slow && !st.condition_cache_poisoned
         then List.lookup f st.condition_cache else none) with
  | some cached => (.ok cached, st)
  | none =>
    match eval_body env f st with
    | (.ok b, st1) =>
      if f.is_slow then
        (.ok b,
         { st1 with
             condition_cache := (f, b) ::
               (if st1.condition_cache_poisoned then [] else st1.condition_cache),
             condition_cache_poisoned := false })
      else (.ok b, st1)
    | (.error e, st1) => (.error e, st1)

/-! ### Concrete instances used by witnesses and counterexamples -/

/-- An inert environment: nothing exists, every regex fails, resolution is
the identity on the relative path. -/
def defaultEnv : Env where
  pathExists := fun _ => false
  isFile := fun _ => false
  isDir := fun _ => false
  canOpen := fun _ => false
  metadataLen := fun _ => none
  readDir := fun _ => none
  readFileCrc := fun _ => .error "io"
  readFileVersion := fun _ => .ok none
  readProductVersion := fun _ => .ok none
  isExecutableReadable := fun _ => false
  parsePlugin := fun _ _ => none
  regexIsMatch := fun _ _ => false
  regexCaptures1 := fun _ _ => none
  resolvePath := fun _ _ _ p => p
  normaliseFileName := fun _ n => n
  hasPluginFileExtension := fun _ _ => false

/-- A fresh evaluation context with clean caches. -/
def defaultState : State where
  game_type := .Oblivion
  data_path := "data"
  additional_data_paths := []
  active_plugins := []
  plugin_versions := []
  crc_cache := []
  crc_cache_poisoned := false
  condition_cache := []
  condition_cache_poisoned := false

/-! ### Helper lemmas about digits and lowercasing -/

theorem isDigitChar_ne_plus {c : Char} (h : isDigitChar c = true) : c ≠ '+' := by
  intro he
  rw [he] at h
  exact absurd h (by decide)

theorem isDigitChar_ne_minus {c : Char} (h : isDigitChar c = true) : c ≠ '-' := by
  intro he
  rw [he] at h
  exact absurd h (by decide)

theorem toLower_eq_of_isDigitChar {c : Char} (h : isDigitChar c = true) :
    c.toLower = c := by
  have h2 : c.toNat ≤ 57 := (of_decide_eq_true h).2
  simp only [Char.toLower]
  rw [if_neg]
  omega

theorem map_toLower_of_digits :
    ∀ l : List Char, l.all isDigitChar = true → l.map Char.toLower = l := by
  intro l hl
  induction l with
  | nil => rfl
  | cons c t ih =>
    simp only [List.all_cons, Bool.and_eq_true] at hl
    simp [toLower_eq_of_isDigitChar hl.1, ih hl.2]

theorem toLowercase_of_digits (s : String) (h : s.data.all isDigitChar = true) :
    toLowercase s = s := by
  cases s with
  | mk data =>
    simp only [toLowercase]
    rw [map_toLower_of_digits data h]

/-! ### Claims C5 and C6: Identifier and Version parsing -/

/-- Claim C5, counterexample: the all-decimal-digit fragment "4294967296"
(which is 2^32, one past u32::MAX) is parsed as a lowercased text
identifier, not as a non-negative integer, refuting the arbitrary-length
numeric parse the claim states. -/
theorem claim_C5_counterexample :
    Identifier.fromStr "4294967296" = .NonNumeric "4294967296"
    ∧ "4294967296".data.all isDigitChar = true := by
  constructor
  · rfl
  · decide

/-- Claim C5 as amended: a nonempty all-decimal-digit fragment parses as the
non-negative integer it denotes (leading zeros ignored) exactly when that
value fits in a u32 (is below 2^32); an all-digit fragment whose value
overflows a u32 is parsed as a text identifier carrying the fragment
unchanged (lowercasing does not alter digits). -/
theorem claim_C5_theorem (s : String) (h1 : s.data ≠ [])
    (h2 : s.data.all isDigitChar = true) :
    (digitsToNat s.data < 2 ^ 32 →
      Identifier.fromStr s = .Numeric (digitsToNat s.data))
    ∧ (2 ^ 32 ≤ digitsToNat s.data →
      Identifier.fromStr s = .NonNumeric s) := by
  obtain ⟨c, cs, hd⟩ : ∃ c cs, s.data = c :: cs := by
    cases hcase : s.data with
    | nil => exact absurd hcase h1
    | cons c cs => exact ⟨c, cs, rfl⟩
  have hcd : isDigitChar c = true := by
    rw [hd] at h2
    simp only [List.all_cons, Bool.and_eq_true] at h2
    exact h2.1
  have hplus : s.data.head? ≠ some '+' := by
    rw [hd]
    simp [isDigitChar_ne_plus hcd]
  have hminus : s.data.head? ≠ some '-' := by
    rw [hd]
    simp [isDigitChar_ne_minus hcd]
  have hdigits : (if s.data.head? = some '+' ∨ s.data.head? = some '-'
      then s.data.tail else s.data) = s.data := if_neg (by simp [hplus, hminus])
  have hnotfail : ¬(s.data = [] ∨ s.data.all isDigitChar = false) := by
    rw [h2]
    simp [h1]
  have hradix : fromStrRadix10 s
      = if digitsToNat s.data < 2 ^ 32 then some (digitsToNat s.data) else none := by
    unfold fromStrRadix10
    simp only [hdigits]
    rw [if_neg hnotfail, if_neg hminus]
  constructor
  · intro hlt
    unfold Identifier.fromStr
    rw [hradix, if_pos hlt]
  · intro hge
    unfold Identifier.fromStr
    rw [hradix, if_neg (by omega)]
    rw [toLowercase_of_digits s h2]

/-- Claim C5, witness: "007" parses as the integer 7 and the overflowing
"4294967296" as text. -/
theorem claim_C5_witness :
    Identifier.fromStr "007" = .Numeric 7
    ∧ Identifier.fromStr "4294967296" = .NonNumeric "4294967296" := by
  constructor
  · have h := ( claim_C5_theorem "007" (by decide) (by decide)).1 (by decide)
    rw [h]
    rfl
  · exact ( claim_C5_theorem "4294967296" (by decide) (by decide)).2 (by decide)

/-- Claim C6, counterexample: the source checks for an empty input before
stripping the metadata suffix, not after, so "+a" (empty before its first
plus sign) is not parsed as "0": it parses to a single empty text release
identifier, which is neither equal to Version::from("0") nor below
Version::from("1"). -/
theorem claim_C6_counterexample :
    Version.beq (Version.fromStr "+a") (Version.fromStr "0") = false
    ∧ Version.lt (Version.fromStr "+a") (Version.fromStr "1") = false := by
  constructor <;> rfl

/-- Claim C6 as amended: the empty-input check happens before metadata
stripping, so only the literally empty string is treated as "0":
Version::from("") equals Version::from("0") and both are below
Version::from("1"); but every nonempty string that starts with a plus sign
(empty content before the first plus) parses to the single empty text
release identifier, is not equal to Version::from("0"), and is not below
Version::from("1") (text identifiers order above numeric ones). -/
theorem claim_C6_theorem :
    (Version.beq (Version.fromStr "") (Version.fromStr "0") = true
     ∧ Version.lt (Version.fromStr "") (Version.fromStr "1") = true)
    ∧ ∀ s : String, s ≠ "" → s.data.head? = some '+' →
        Version.fromStr s = { release_ids := [.NonNumeric ""], pre_release_ids := [] }
        ∧ Version.beq (Version.fromStr s) (Version.fromStr "0") = false
        ∧ Version.lt (Version.fromStr s) (Version.fromStr "1") = false := by
  constructor
  · constructor <;> rfl
  · intro s hne hplus
    obtain ⟨cs, hd⟩ : ∃ cs, s.data = '+' :: cs := by
      cases hcase : s.data with
      | nil => rw [hcase] at hplus; exact absurd hplus (by simp)
      | cons c cs =>
        rw [hcase] at hplus
        simp only [List.head?, Option.some_inj] at hplus
        exact ⟨cs, by rw [hplus]⟩
    have ht : trim_metadata s = "" := by
      unfold trim_metadata
      rw [if_neg hne, hd]
      rfl
    have hv : Version.fromStr s
        = { release_ids := [.NonNumeric ""], pre_release_ids := [] } := by
      unfold Version.fromStr
      rw [ht]
      rfl
    refine ⟨hv, ?_, ?_⟩ <;> rw [hv] <;> rfl

/-- Claim C6, witness: the amended statement applied to "+a". -/
theorem claim_C6_witness :
    Version.beq (Version.fromStr "") (Version.fromStr "0") = true
    ∧ Version.fromStr "+a"
        = { release_ids := [.NonNumeric ""], pre_release_ids := [] }
    ∧ Version.beq (Version.fromStr "+a") (Version.fromStr "0") = false := by
  refine ⟨claim_C6_theorem.1.1, ?_, ?_⟩
  · exact (claim_C6_theorem.2 "+a" (by decide) rfl).1
  · exact (claim_C6_theorem.2 "+a" (by decide) rfl).2.1

/-! ### Claim C1: absent-version comparator policy -/

/-- Claim C1: for the Version and ProductVersion predicates, whenever the
version reader finds no actual version at the resolved path, evaluation
returns true exactly for the NotEqual, LessThan and LessThanOrEqual
comparators and false exactly for Equal, GreaterThan and
GreaterThanOrEqual, for every given version string; and the reader finds
no version when the resolved path is not a file (both readers), or when it
is a plugin file without an override entry (the Version reader). -/
theorem claim_C1_theorem (env : Env) (st : State) (fp : Path) (given : String)
    (c : ComparisonOperator) :
    (get_version env st (resolve_path env st fp) = .ok none →
      (evaluate_version env st fp given c (get_version env st) = .ok true
        ↔ (c = .NotEqual ∨ c = .LessThan ∨ c = .LessThanOrEqual))
      ∧ (evaluate_version env st fp given c (get_version env st) = .ok false
        ↔ (c = .Equal ∨ c = .GreaterThan ∨ c = .GreaterThanOrEqual)))
  ∧ (env.isFile (resolve_path env st fp) = false →
      get_version env st (resolve_path env st fp) = .ok none
      ∧ get_product_version env (resolve_path env st fp) = .ok none)
  ∧ ((lowercase_filename (resolve_path env st fp)).bind
        (fun key => List.lookup key st.plugin_versions) = none →
      env.hasPluginFileExtension st.game_type (resolve_path env st fp) = true →
      get_version env st (resolve_path env st fp) = .ok none)
  ∧ (get_product_version env (resolve_path env st fp) = .ok none →
      (evaluate_version env st fp given c (get_product_version env) = .ok true
        ↔ (c = .NotEqual ∨ c = .LessThan ∨ c = .LessThanOrEqual))
      ∧ (evaluate_version env st fp given c (get_product_version env) = .ok false
        ↔ (c = .Equal ∨ c = .GreaterThan ∨ c = .GreaterThanOrEqual))) := by
  refine ⟨?_, ?_, ?_, ?_⟩
  · intro h
    unfold evaluate_version
    rw [h]
    cases c <;> simp
  · intro h
    constructor
    · unfold get_version
      rw [h]
      rfl
    · unfold get_product_version
      rw [h]
      rfl
  · intro h1 h2
    by_cases hf : env.isFile (resolve_path env st fp)
    · unfold get_version
      rw [hf, h1, h2]
      rfl
    · unfold get_version
      rw [Bool.eq_false_iff.mpr hf]
      rfl
  · intro h
    unfold evaluate_version
    rw [h]
    cases c <;> simp

/-- Claim C1, witness: a missing path with the NotEqual comparator is true
and with the Equal comparator false, for both predicate kinds. -/
theorem claim_C1_witness :
    evaluate_version defaultEnv defaultState "missing" "1.0" .NotEqual
      (get_version defaultEnv defaultState) = .ok true
    ∧ evaluate_version defaultEnv defaultState "missing" "1.0" .Equal
      (get_version defaultEnv defaultState) = .ok false
    ∧ evaluate_version defaultEnv defaultState "missing" "1.0" .LessThan
      (get_product_version defaultEnv) = .ok true := by
  refine ⟨?_, ?_, ?_⟩
  · exact ((claim_C1_theorem defaultEnv defaultState "missing" "1.0" .NotEqual).1
      rfl).1.mpr (Or.inl rfl)
  · exact ((claim_C1_theorem defaultEnv defaultState "missing" "1.0" .Equal).1
      rfl).2.mpr (Or.inl rfl)
  · exact ((claim_C1_theorem defaultEnv defaultState "missing" "1.0" .LessThan).2.2.2
      rfl).1.mpr (Or.inr (Or.inl rfl))

/-! ### Claim C3: override map priority in get_version -/

/-- A context carrying one version override, for the C3 counterexample. -/
def stC3 : State := { defaultState with plugin_versions := [("missing.esp", "1.0")] }

/-- Claim C3, counterexample: get_version checks is_file before the
override map, so a path that is not a regular file is treated as having no
version even when its lowercased filename has an override entry; the
override string "1.0" would compare Equal to "1.0" as true, yet the
predicate evaluates to false. -/
theorem claim_C3_counterexample :
    evaluate_version defaultEnv stC3 "missing.esp" "1.0" .Equal
      (get_version defaultEnv stC3) = .ok false
    ∧ lowercase_filename "missing.esp" = some "missing.esp"
    ∧ List.lookup "missing.esp" stC3.plugin_versions = some "1.0"
    ∧ compare_versions (Version.fromStr "1.0") .Equal "1.0" = true := by
  refine ⟨rfl, rfl, rfl, rfl⟩

/-- Claim C3 as amended: for every path that is a regular file and whose
lowercased filename has an override entry, the override string is the
version that is compared (the plugin extension and the PE reader are not
consulted); only when there is no override entry does get_version consult
the plugin extension (yielding no version) or read the PE file version. -/
theorem claim_C3_theorem (env : Env) (st : State) (path : Path)
    (key version : String) :
    (env.isFile path = true → lowercase_filename path = some key →
      List.lookup key st.plugin_versions = some version →
      get_version env st path = .ok (some (Version.fromStr version))
      ∧ ∀ (raw : Path) (given : String) (c : ComparisonOperator),
          resolve_path env st raw = path →
          evaluate_version env st raw given c (get_version env st)
            = .ok (compare_versions (Version.fromStr version) c given))
  ∧ (env.isFile path = true →
      (lowercase_filename path).bind
        (fun k => List.lookup k st.plugin_versions) = none →
      get_version env st path
        = (if env.hasPluginFileExtension st.game_type path then .ok none
           else env.readFileVersion path)) := by
  constructor
  · intro hf hk hv
    have hg : get_version env st path = .ok (some (Version.fromStr version)) := by
      unfold get_version
      rw [hf, hk]
      rw [show (some key).bind (fun k => List.lookup k st.plugin_versions)
            = List.lookup key st.plugin_versions from rfl, hv]
      rfl
    refine ⟨hg, ?_⟩
    intro raw given c hres
    unfold evaluate_version
    rw [hres, hg]
  · intro hf hnone
    unfold get_version
    rw [hf, hnone]
    rfl

/-- An environment in which exactly two files exist, for the C3 witness. -/
def envC3 : Env :=
  { defaultEnv with isFile := fun p => p == "Blank.esm" || p == "Other.esm" }

/-- A context with one version override, for the C3 witness. -/
def stC3w : State := { defaultState with plugin_versions := [("blank.esm", "5")] }

/-- Claim C3, witness: the override version "5" of an existing file is the
version compared, making Version("Blank.esm", "5", Equal) true. -/
theorem claim_C3_witness :
    get_version envC3 stC3w "Blank.esm" = .ok (some (Version.fromStr "5"))
    ∧ evaluate_version envC3 stC3w "Blank.esm" "5" .Equal
        (get_version envC3 stC3w) = .ok true
    ∧ get_version envC3 stC3w "Other.esm"
        = (if envC3.hasPluginFileExtension stC3w.game_type "Other.esm"
           then .ok none else envC3.readFileVersion "Other.esm") := by
  have h := claim_C3_theorem envC3 stC3w "Blank.esm" "blank.esm" "5"
  refine ⟨(h.1 rfl rfl rfl).1, ?_, ?_⟩
  · have h2 := (h.1 rfl rfl rfl).2 "Blank.esm" "5" .Equal rfl
    rw [h2]
    rfl
  · exact (claim_C3_theorem envC3 stC3w "Other.esm" "other.esm" "5").2 rfl rfl

/-! ### Claim C2: overlay error handling -/

/-- Claim C2: during overlay enumeration, a failed directory listing for a
base directory makes the whole enumeration return Ok(false) at once,
whatever base directories follow; while an error among the entries of a
successfully listed directory is propagated as an Err carrying the listed
(joined) path. -/
theorem claim_C2_theorem (env : Env) {σ : Type} (ev : σ → String → σ × Bool)
    (b : Path) (rest : List Path) (parent : Path) :
    (∀ s : σ, env.readDir (path_join b parent) = none →
      evaluate_dir_entries_from_base_paths env ev s (b :: rest) parent = .ok false)
  ∧ (∀ (s : σ) (entries : List (Except String String)) (e : Error),
      env.readDir (path_join b parent) = some entries →
      visit_entries ev s entries (path_join b parent) = .error e →
      evaluate_dir_entries_from_base_paths env ev s (b :: rest) parent = .error e)
  ∧ (∀ (pre post : List (Except String String)) (cause : String) (s s1 : σ),
      visit_entries ev s pre parent = .ok (s1, false) →
      visit_entries ev s (pre ++ .error cause :: post) parent
        = .error (.IoError parent cause)) := by
  refine ⟨?_, ?_, ?_⟩
  · intro s h
    unfold evaluate_dir_entries_from_base_paths
    simp only [h]
  · intro s entries e h hv
    unfold evaluate_dir_entries_from_base_paths
    simp only [h, hv]
  · intro pre
    induction pre with
    | nil =>
      intro post cause s s1 h
      rfl
    | cons x t ih =>
      intro post cause s s1 h
      cases x with
      | error e2 => exact absurd h (by simp [visit_entries])
      | ok name =>
        rw [List.cons_append]
        unfold visit_entries at h ⊢
        by_cases hcond : (ev s name).2 = true
        · rw [if_pos hcond] at h
          exact absurd h (by simp)
        · rw [if_neg hcond] at h ⊢
          exact ih post cause (ev s name).1 s1 h

/-- The evaluator that never accepts, used by the C2 and C4 witnesses. -/
def constFalseEv : Unit → String → Unit × Bool := fun _ _ => ((), false)

/-- An environment whose only listable directory holds one erroring entry,
for the C2 witness. -/
def envC2 : Env :=
  { defaultEnv with
      readDir := fun p => if p = "c1/par2" then some [.error "boom"] else none }

/-- Claim C2, witness: a failing first base directory yields Ok(false)
despite a second base directory; an erroring entry of a listed directory
yields an IoError carrying the listed path. -/
theorem claim_C2_witness :
    evaluate_dir_entries_from_base_paths envC2 constFalseEv () ["b1", "b2"] "par"
      = .ok false
    ∧ evaluate_dir_entries_from_base_paths envC2 constFalseEv () ["c1"] "par2"
      = .error (.IoError "c1/par2" "boom")
    ∧ visit_entries constFalseEv () ([.ok "x"] ++ .error "boom" :: []) "q"
      = .error (.IoError "q" "boom") := by
  refine ⟨?_, ?_, ?_⟩
  · exact (claim_C2_theorem envC2 constFalseEv "b1" ["b2"] "par").1 () rfl
  · exact (claim_C2_theorem envC2 constFalseEv "c1" [] "par2").2.1 ()
      [.error "boom"] (.IoError "c1/par2" "boom") rfl rfl
  · exact (claim_C2_theorem envC2 constFalseEv "c1" [] "q").2.2
      [.ok "x"] [] "boom" () () rfl

/-! ### Claim C4: overlay search order -/

/-- The search order stated by the claim: for OpenMW the additional data
paths in reverse configuration order then the primary data path; for every
other game type the additional data paths in configuration order then the
primary data path. -/
def claimed_search_order (st : State) : List Path :=
  if st.game_type = GameType.OpenMW then
    st.additional_data_paths.reverse ++ [st.data_path]
  else st.additional_data_paths ++ [st.data_path]

/-- Claim C4: overlay enumeration visits exactly the claimed base-directory
order, and on additional paths [A, B] with primary P that order is
[A, B, P] for non-OpenMW game types and [B, A, P] for OpenMW. -/
theorem claim_C4_theorem (env : Env) (st : State) (parent : Path) {σ : Type}
    (ev : σ → String → σ × Bool) (init : σ) :
    evaluate_dir_entries env st parent ev init
      = evaluate_dir_entries_from_base_paths env ev init (claimed_search_order st) parent
  ∧ ∀ (A B P : Path),
      (st.game_type ≠ GameType.OpenMW →
        claimed_search_order
          { st with additional_data_paths := [A, B], data_path := P } = [A, B, P])
      ∧ claimed_search_order
          { st with game_type := GameType.OpenMW,
                    additional_data_paths := [A, B], data_path := P } = [B, A, P] := by
  constructor
  · unfold evaluate_dir_entries claimed_search_order
    cases h : st.game_type <;> simp
  · intro A B P
    constructor
    · intro hne
      simp [claimed_search_order, hne]
    · simp [claimed_search_order]

/-- Claim C4, witness: the refinement at a concrete state, and the concrete
orders for additional paths [a, b] with primary p. -/
theorem claim_C4_witness :
    evaluate_dir_entries defaultEnv defaultState "par" constFalseEv ()
      = evaluate_dir_entries_from_base_paths defaultEnv constFalseEv ()
          (claimed_search_order defaultState) "par"
    ∧ claimed_search_order
        { defaultState with additional_data_paths := ["a", "b"], data_path := "p" }
        = ["a", "b", "p"]
    ∧ claimed_search_order
        { defaultState with game_type := .OpenMW,
                            additional_data_paths := ["a", "b"], data_path := "p" }
        = ["b", "a", "p"] := by
  have h := claim_C4_theorem defaultEnv defaultState "par" constFalseEv ()
  exact ⟨h.1, (h.2 "a" "b" "p").1 (by decide), (h.2 "a" "b" "p").2⟩

/-! ### Claim C8: FilenameVersion scanning -/

theorem visit_entries_pure (p : String → Bool) (parent : Path) :
    ∀ names : List String,
      visit_entries (fun (_ : Unit) n => ((), p n)) () (names.map Except.ok) parent
        = .ok ((), names.any p) := by
  intro names
  induction names with
  | nil => rfl
  | cons a t ih =>
    by_cases h : p a
    · simp [visit_entries, h]
    · simp [visit_entries, h, ih]

/-- Claim C8 as amended: FilenameVersion is the overlay enumeration of the
participating-capture evaluator; an entry whose normalised name matches
without a participating capture group is skipped exactly as a non-matching
entry is (not treated as a comparison failure); and over a successfully
listed directory the result is true exactly when some visited entry has a
participating capture whose text satisfies the comparator - the scan
continues past entries whose comparison fails, so the first participating
entry does not by itself decide the result. -/
theorem claim_C8_theorem (env : Env) (st : State) (parent : Path) (r : RegexPat)
    (version : String) (c : ComparisonOperator) :
    (evaluate_filename_version env st parent r version c
      = evaluate_dir_entries env st parent
          (fun (_ : Unit) name =>
            ((), filename_version_evaluator env st.game_type r version c name)) ())
  ∧ (∀ name, env.regexCaptures1 r (env.normaliseFileName st.game_type name) = some none →
      filename_version_evaluator env st.game_type r version c name = false)
  ∧ (∀ name, env.regexCaptures1 r (env.normaliseFileName st.game_type name) = none →
      filename_version_evaluator env st.game_type r version c name = false)
  ∧ (∀ (b : Path) (names : List String),
      env.readDir (path_join b parent) = some (names.map Except.ok) →
      evaluate_dir_entries_from_base_paths env
        (fun (_ : Unit) name =>
          ((), filename_version_evaluator env st.game_type r version c name)) ()
        [b] parent
        = .ok (names.any (filename_version_evaluator env st.game_type r version c))) := by
  refine ⟨rfl, ?_, ?_, ?_⟩
  · intro name h
    unfold filename_version_evaluator
    rw [h]
  · intro name h
    unfold filename_version_evaluator
    rw [h]
  · intro b names h
    unfold evaluate_dir_entries_from_base_paths
    simp only [h, visit_entries_pure]
    cases hany : names.any (filename_version_evaluator env st.game_type r version c) <;>
      simp [hany, evaluate_dir_entries_from_base_paths]

/-- An environment listing two entries whose captures parse as versions 1
and 2, plus an entry matching without a participating capture, for the C8
counterexample and witness. -/
def envC8 : Env :=
  { defaultEnv with
      readDir := fun p =>
        if p = "base/par" then some [.ok "a1", .ok "a2"] else none,
      regexCaptures1 := fun _ n =>
        if n = "a1" then some (some "1")
        else if n = "a2" then some (some "2")
        else if n = "a3" then some none
        else none }

/-- The context searching the single base directory "base". -/
def stC8 : State := { defaultState with data_path := "base" }

/-- Claim C8, counterexample: the first entry whose normalised name matches
with a participating capture ("a1", capturing "1") fails the comparison
Equal "2", yet the scan continues and the second entry makes the result
true - so evaluation is not decided by the first participating entry. -/
theorem claim_C8_counterexample :
    evaluate_filename_version envC8 stC8 "par" "rx" "2" .Equal = .ok true
    ∧ envC8.regexCaptures1 "rx" (envC8.normaliseFileName stC8.game_type "a1")
        = some (some "1")
    ∧ filename_version_evaluator envC8 stC8.game_type "rx" "2" .Equal "a1" = false := by
  refine ⟨rfl, rfl, rfl⟩

/-- Claim C8, witness: the amended statement at the concrete environment -
skipping of non-participating and non-matching entries, and the
any-entry-satisfies result over one listed directory. -/
theorem claim_C8_witness :
    evaluate_filename_version envC8 stC8 "par" "rx" "2" .Equal
      = evaluate_dir_entries envC8 stC8 "par"
          (fun (_ : Unit) name =>
            ((), filename_version_evaluator envC8 stC8.game_type "rx" "2" .Equal name)) ()
    ∧ filename_version_evaluator envC8 stC8.game_type "rx" "2" .Equal "a3" = false
    ∧ filename_version_evaluator envC8 stC8.game_type "rx" "2" .Equal "zz" = false
    ∧ evaluate_dir_entries_from_base_paths envC8
        (fun (_ : Unit) name =>
          ((), filename_version_evaluator envC8 stC8.game_type "rx" "2" .Equal name)) ()
        ["base"] "par"
        = .ok (["a1", "a2"].any
            (filename_version_evaluator envC8 stC8.game_type "rx" "2" .Equal)) := by
  have h := claim_C8_theorem envC8 stC8 "par" "rx" "2" .Equal
  exact ⟨h.1, h.2.1 "a3" rfl, h.2.2.1 "zz" rfl, h.2.2.2 "base" ["a1", "a2"] rfl⟩

/-! ### Shared lemmas about the evaluation dispatch and the caches -/

theorem eval_body_state_condition (env : Env) (f : Function) (st : State) :
    (eval_body env f st).2.condition_cache = st.condition_cache
    ∧ (eval_body env f st).2.condition_cache_poisoned
        = st.condition_cache_poisoned := by
  cases f
  case Checksum p crc =>
    constructor <;>
    · dsimp only [eval_body, evaluate_checksum]
      split
      · rfl
      · split
        · rfl
        · split <;> rfl
  all_goals exact ⟨rfl, rfl⟩

theorem eval_body_fst_of_condition (env : Env) (f : Function) (st : State)
    (c2 : List (Function × Bool)) (pb : Bool) :
    (eval_body env f
      { st with condition_cache := c2, condition_cache_poisoned := pb }).1
      = (eval_body env f st).1 := by
  cases f
  case Checksum p crc =>
    dsimp only [eval_body, evaluate_checksum, resolve_path]
    split
    · rfl
    · split
      · rfl
      · split <;> rfl
  all_goals rfl

theorem eval_body_error_state (env : Env) (f : Function) (st : State) (e : Error)
    (h : (eval_body env f st).1 = .error e) : (eval_body env f st).2 = st := by
  cases f
  case Checksum p crc =>
    dsimp only [eval_body, evaluate_checksum] at h ⊢
    rcases hl : (if st.crc_cache_poisoned = true then none
        else List.lookup (toLowercase p) st.crc_cache) with _ | cached
    · rw [hl] at h
      rcases hf : env.isFile (resolve_path env st p) with _ | _
      · simp [hf] at h ⊢
      · rcases hc : env.readFileCrc (resolve_path env st p) with e2 | calc2
        · simp [hf, hc] at h ⊢
        · simp [hf, hc] at h
    · rw [hl] at h
  all_goals rfl

theorem eval_fast (env : Env) (f : Function) (st : State)
    (h : f.is_slow = false) : Function.eval env f st = eval_body env f st := by
  rcases hb : eval_body env f st with ⟨res, st1⟩
  cases res <;> simp [Function.eval, h, hb]

theorem eval_fst_of_read_none (env : Env) (f : Function) (st : State)
    (h : (if f.is_slow && !st.condition_cache_poisoned
          then List.lookup f st.condition_cache else none) = none) :
    (Function.eval env f st).1 = (eval_body env f st).1 := by
  unfold Function.eval
  rw [h]
  rcases hb : eval_body env f st with ⟨res, st1⟩
  cases res <;> simp only [hb]
  split <;> rfl

/-! ### Claim C7: result-cache participation -/

/-- Claim C7: exactly the kinds other than ActivePath, ActiveRegex,
ManyActive and Checksum are slow; a slow predicate's successful evaluation
leaves its boolean in the result cache keyed by the predicate, and a later
evaluation of the same predicate from the resulting context returns that
boolean untouched whatever the environment then says (no re-evaluation);
a fast predicate neither reads nor writes the result cache. -/
theorem claim_C7_theorem (env : Env) (f : Function) (st : State) (b : Bool) :
    (f.is_slow = false ↔
      (∃ p, f = .ActivePath p) ∨ (∃ r, f = .ActiveRegex r)
      ∨ (∃ r, f = .ManyActive r) ∨ (∃ p c, f = .Checksum p c))
  ∧ (st.condition_cache_poisoned = false → f.is_slow = true →
      (Function.eval env f st).1 = .ok b →
      List.lookup f (Function.eval env f st).2.condition_cache = some b
      ∧ ∀ env2 : Env, Function.eval env2 f (Function.eval env f st).2
          = (.ok b, (Function.eval env f st).2))
  ∧ (f.is_slow = false →
      (Function.eval env f st).2.condition_cache = st.condition_cache
      ∧ (Function.eval env f st).2.condition_cache_poisoned
          = st.condition_cache_poisoned
      ∧ ∀ (c2 : List (Function × Bool)) (pb : Bool),
          (Function.eval env f
            { st with condition_cache := c2, condition_cache_poisoned := pb }).1
            = (Function.eval env f st).1) := by
  refine ⟨?_, ?_, ?_⟩
  · cases f <;> simp [Function.is_slow]
  · intro hp hs hr
    have hread : (if f.is_slow && !st.condition_cache_poisoned
        then List.lookup f st.condition_cache else none)
        = List.lookup f st.condition_cache := by
      simp [hs, hp]
    rcases hL : List.lookup f st.condition_cache with _ | b0
    · rcases hb : eval_body env f st with ⟨res, st1⟩
      have hponly : st1.condition_cache_poisoned = false := by
        have h2 := (eval_body_state_condition env f st).2
        rw [hb] at h2
        rw [h2, hp]
      cases res with
      | error e =>
        have hev : (Function.eval env f st).1 = .error e := by
          unfold Function.eval
          rw [hread, hL]
          simp only [hb]
        rw [hev] at hr
        exact absurd hr (by simp)
      | ok b1 =>
        have hev : Function.eval env f st
            = (.ok b1, { st1 with
                condition_cache := (f, b1) :: st1.condition_cache,
                condition_cache_poisoned := false }) := by
          unfold Function.eval
          rw [hread, hL]
          simp only [hb, hs, hponly]
          rfl
        rw [hev] at hr
        simp only [Except.ok.injEq] at hr
        subst hr
        constructor
        · rw [hev]
          simp [List.lookup]
        · intro env2
          rw [hev]
          unfold Function.eval
          simp [hs, List.lookup]
    · have hev : Function.eval env f st = (.ok b0, st) := by
        unfold Function.eval
        rw [hread, hL]
      rw [hev] at hr
      simp only [Except.ok.injEq] at hr
      subst hr
      constructor
      · rw [hev]
        exact hL
      · intro env2
        rw [hev]
        unfold Function.eval
        rw [hread, hL]
  · intro hf
    refine ⟨?_, ?_, ?_⟩
    · rw [eval_fast env f st hf]
      exact (eval_body_state_condition env f st).1
    · rw [eval_fast env f st hf]
      exact (eval_body_state_condition env f st).2
    · intro c2 pb
      rw [eval_fast env f _ hf, eval_fast env f st hf]
      exact eval_body_fst_of_condition env f st c2 pb

/-- An environment in which every path exists, for the C7 witness. -/
def envTrue : Env := { defaultEnv with pathExists := fun _ => true }

/-- Claim C7, witness: FilePath("x") caches its true result and a later
evaluation returns it even under an environment where the file no longer
exists; ActivePath leaves the result cache untouched; Checksum is fast. -/
theorem claim_C7_witness :
    List.lookup (Function.FilePath "x")
      ((Function.eval envTrue (.FilePath "x") defaultState).2.condition_cache)
      = some true
    ∧ Function.eval defaultEnv (.FilePath "x")
        ((Function.eval envTrue (.FilePath "x") defaultState).2)
        = (.ok true, (Function.eval envTrue (.FilePath "x") defaultState).2)
    ∧ (Function.eval defaultEnv (.ActivePath "x") defaultState).2.condition_cache
        = defaultState.condition_cache
    ∧ Function.is_slow (.Checksum "p" 3) = false := by
  have h := (claim_C7_theorem envTrue (.FilePath "x") defaultState true).2.1
    rfl rfl rfl
  refine ⟨h.1, h.2 defaultEnv, ?_, ?_⟩
  · exact ((claim_C7_theorem defaultEnv (.ActivePath "x") defaultState true).2.2
      rfl).1
  · exact (claim_C7_theorem defaultEnv (.Checksum "p" 3) defaultState true).1.mpr
      (Or.inr (Or.inr (Or.inr ⟨"p", 3, rfl⟩)))

/-! ### Claim C9: poison recovery in both caches -/

/-- Claim C9: a poisoned checksum-cache lock is treated as a miss by the
reader (the result is as if the cache were empty and clean) and the writer
discards all entries, keeps only the fresh one and clears the poison; the
same holds for the predicate-result cache in Function::eval; in neither
case does the poison reach the caller (the results coincide with the
clean-cache results). -/
theorem claim_C9_theorem (env : Env) (st : State) (fp : Path) (crc : Nat)
    (f : Function) :
    (st.crc_cache_poisoned = true →
      (evaluate_checksum env st fp crc).1
        = (evaluate_checksum env
            { st with crc_cache := [], crc_cache_poisoned := false } fp crc).1)
  ∧ (st.crc_cache_poisoned = true → ∀ c2 : Nat,
      env.isFile (resolve_path env st fp) = true →
      env.readFileCrc (resolve_path env st fp) = .ok c2 →
      (evaluate_checksum env st fp crc).2.crc_cache = [(toLowercase fp, c2)]
      ∧ (evaluate_checksum env st fp crc).2.crc_cache_poisoned = false)
  ∧ (st.condition_cache_poisoned = true →
      (Function.eval env f st).1
        = (Function.eval env f
            { st with condition_cache := [], condition_cache_poisoned := false }).1)
  ∧ (st.condition_cache_poisoned = true → f.is_slow = true → ∀ b : Bool,
      (Function.eval env f st).1 = .ok b →
      (Function.eval env f st).2.condition_cache = [(f, b)]
      ∧ (Function.eval env f st).2.condition_cache_poisoned = false) := by
  refine ⟨?_, ?_, ?_, ?_⟩
  · intro hp
    unfold evaluate_checksum
    rcases hf : env.isFile (env.resolvePath st.game_type st.data_path
        st.additional_data_paths fp) with _ | _
    · simp [hp, hf, List.lookup, resolve_path]
    · rcases hc : env.readFileCrc (env.resolvePath st.game_type st.data_path
          st.additional_data_paths fp) with e2 | c2
      · simp [hp, hf, hc, List.lookup, resolve_path]
      · simp [hp, hf, hc, List.lookup, resolve_path]
  · intro hp c2 hf hc
    simp only [resolve_path] at hf hc
    constructor <;>
    · unfold evaluate_checksum
      simp [hp, hf, hc, List.lookup, resolve_path]
  · intro hp
    rw [eval_fst_of_read_none env f st (by rw [hp]; simp),
        eval_fst_of_read_none env f _
          (by cases hsl : f.is_slow <;> simp [hsl, List.lookup])]
    exact (eval_body_fst_of_condition env f st [] false).symm
  · intro hp hs b hr
    have hread : (if f.is_slow && !st.condition_cache_poisoned
        then List.lookup f st.condition_cache else none) = none := by
      rw [hp]
      simp
    rcases hb : eval_body env f st with ⟨res, st1⟩
    have hpoison : st1.condition_cache_poisoned = true := by
      have h2 := (eval_body_state_condition env f st).2
      rw [hb] at h2
      rw [h2, hp]
    cases res with
    | error e =>
      have hev : (Function.eval env f st).1 = .error e := by
        unfold Function.eval
        rw [hread]
        simp only [hb]
      rw [hev] at hr
      exact absurd hr (by simp)
    | ok b1 =>
      have hev : Function.eval env f st
          = (.ok b1, { st1 with
              condition_cache := [(f, b1)],
              condition_cache_poisoned := false }) := by
        unfold Function.eval
        rw [hread]
        simp only [hb, hs, hpoison]
        rfl
      rw [hev] at hr
      simp only [Except.ok.injEq] at hr
      subst hr
      rw [hev]
      exact ⟨rfl, rfl⟩

/-- A state with both caches poisoned and stale entries, plus an
environment whose one file hashes to 7, for the C9 witness. -/
def envC9 : Env :=
  { defaultEnv with isFile := fun _ => true, readFileCrc := fun _ => .ok 7 }

/-- The C9 witness context: both locks poisoned with leftover entries. -/
def stC9 : State :=
  { defaultState with
      crc_cache := [("junk", 9)], crc_cache_poisoned := true,
      condition_cache := [(Function.FilePath "x", false)],
      condition_cache_poisoned := true }

/-- Claim C9, witness: with both locks poisoned, the checksum result equals
the clean-cache result, the writer leaves exactly the fresh entry with the
poison cleared, and the same holds for the result cache on FilePath. -/
theorem claim_C9_witness :
    (evaluate_checksum envC9 stC9 "f" 7).1
      = (evaluate_checksum envC9
          { stC9 with crc_cache := [], crc_cache_poisoned := false } "f" 7).1
    ∧ (evaluate_checksum envC9 stC9 "f" 7).2.crc_cache = [(toLowercase "f", 7)]
    ∧ (evaluate_checksum envC9 stC9 "f" 7).2.crc_cache_poisoned = false
    ∧ (Function.eval envC9 (.FilePath "x") stC9).1
      = (Function.eval envC9 (.FilePath "x")
          { stC9 with condition_cache := [], condition_cache_poisoned := false }).1
    ∧ (Function.eval envC9 (.FilePath "x") stC9).2.condition_cache
      = [(Function.FilePath "x", false)]
    ∧ (Function.eval envC9 (.FilePath "x") stC9).2.condition_cache_poisoned
      = false := by
  have h := claim_C9_theorem envC9 stC9 "f" 7 (.FilePath "x")
  have h2 := h.2.1 rfl 7 rfl rfl
  have h4 := h.2.2.2 rfl rfl false rfl
  exact ⟨h.1 rfl, h2.1, h2.2, h.2.2.1 rfl, h4.1, h4.2⟩

/-! ### Claim C10: errors are not cached -/

/-- Claim C10: when Function::eval returns an Err the whole context is left
unchanged - in particular nothing is inserted into the predicate-result
cache - so the next evaluation of the same predicate proceeds exactly as
the first did. -/
theorem claim_C10_theorem (env : Env) (f : Function) (st : State) (e : Error)
    (h : (Function.eval env f st).1 = .error e) :
    (Function.eval env f st).2 = st
    ∧ Function.eval env f (Function.eval env f st).2
      = Function.eval env f st := by
  have hsnd : (Function.eval env f st).2 = st := by
    unfold Function.eval at h ⊢
    rcases hR : (if f.is_slow && !st.condition_cache_poisoned
        then List.lookup f st.condition_cache else none) with _ | cached
    · rw [hR] at h
      rcases hb : eval_body env f st with ⟨res, st1⟩
      cases res with
      | ok b1 =>
        simp only [hb] at h
        rcases hsl : f.is_slow with _ | _ <;> simp [hsl] at h
      | error e2 =>
        simp only [hb] at h ⊢
        have : (eval_body env f st).1 = .error e2 := by rw [hb]
        have h3 := eval_body_error_state env f st e2 this
        rw [hb] at h3
        exact h3
    · rw [hR] at h
  exact ⟨hsnd, by rw [hsnd]⟩

/-- An environment whose directory listing yields one erroring entry, for
the C10 witness. -/
def envC10 : Env :=
  { defaultEnv with readDir := fun _ => some [.error "io"] }

/-- Claim C10, witness: a FileRegex evaluation that fails with an entry
error leaves the context (hence the result cache) untouched and repeats
identically. -/
theorem claim_C10_witness :
    (Function.eval envC10 (.FileRegex "d" "rx") defaultState).2 = defaultState
    ∧ Function.eval envC10 (.FileRegex "d" "rx")
        ((Function.eval envC10 (.FileRegex "d" "rx") defaultState).2)
      = Function.eval envC10 (.FileRegex "d" "rx") defaultState := by
  exact claim_C10_theorem envC10 (.FileRegex "d" "rx") defaultState
    (.IoError "data/d" "io") rfl

end LCI
